import Mathlib

/-!
Shallow embedding of the OAuth2 callback handler in `src/api/oauth.js`
(KomaVR/KXS-Bot-OAuth2).

The handler is an async request handler.  Its only effects are the two
outbound HTTP calls (token exchange, user lookup) and the final response.
We model it as a pure function taking the results of those two calls as
inputs (a `FetchResult` is either a resolved response of any status —
`validateStatus: () => true` — or a rejected promise carrying an `Error`
message), and returning the response together with the list of outbound
calls the control flow performed.

Environment variables (`process.env.X : string | undefined`) are modelled
as plain strings, the missing value as `""`: the code only ever tests them
for JS falsiness (`!x`), which identifies `undefined` and `""`.

`new URLSearchParams(obj).toString()` is modelled by the WHATWG
`application/x-www-form-urlencoded` serializer on the character level:
`0x20` becomes `+`; ASCII alphanumerics and `*`, `-`, `.`, `_` are kept;
every other character is percent-encoded `%XY` (the model is faithful for
code points below 128, which covers every string the theorems touch).
-/

/-- Character kept verbatim by the `application/x-www-form-urlencoded`
serializer: ASCII alphanumerics and `*`, `-`, `.`, `_`. -/
def urlKeepChar (c : Char) : Bool :=
  c.isAlphanum || c == '*' || c == '-' || c == '.' || c == '_'

/-- Uppercase hexadecimal digit for a value below 16. -/
def hexDigitChar (n : Nat) : Char :=
  if n < 10 then Char.ofNat (48 + n) else Char.ofNat (55 + n)

/-- Serialization of one character by `URLSearchParams.toString()`. -/
def encodeCharL (c : Char) : List Char :=
  if c == ' ' then ['+']
  else if urlKeepChar c then [c]
  else ['%', hexDigitChar (c.toNat / 16), hexDigitChar (c.toNat % 16)]

/-- Serialization of a string (as a character list). -/
def encodeL (l : List Char) : List Char :=
  (l.map encodeCharL).flatten

/-- Value of a hexadecimal digit character, `none` on other characters. -/
def hexVal (c : Char) : Option Nat :=
  if '0' ≤ c ∧ c ≤ '9' then some (c.toNat - 48)
  else if 'A' ≤ c ∧ c ≤ 'F' then some (c.toNat - 55)
  else if 'a' ≤ c ∧ c ≤ 'f' then some (c.toNat - 87)
  else none

/-- Urlencoded percent-decoding: `+` becomes a space, a valid `%XY`
sequence becomes the byte `XY`; malformed escapes are kept verbatim. -/
def decodeL : List Char → List Char
  | [] => []
  | c :: rest =>
    if c == '%' then
      match rest with
      | h :: l :: rest2 =>
        match hexVal h, hexVal l with
        | some a, some b => Char.ofNat (16 * a + b) :: decodeL rest2
        | _, _ => '%' :: decodeL (h :: l :: rest2)
      | r => '%' :: decodeL r
    else if c == '+' then ' ' :: decodeL rest
    else c :: decodeL rest

/-- JS `s.split(sep)` with a one-character separator: split the character
list at every occurrence of `sep` (both agree on the edge cases: the empty
string gives one empty piece, adjacent separators give empty pieces). -/
def jsSplit (sep : Char) (s : String) : List String :=
  (s.data.splitOn sep).map String.mk

/-- One `key=value` pair as serialized by `URLSearchParams.toString()`. -/
def encodePairL (kv : List Char × List Char) : List Char :=
  encodeL kv.1 ++ '=' :: encodeL kv.2

/-- Full query-string serialization of an ordered parameter list. -/
def buildQueryL (ps : List (List Char × List Char)) : List Char :=
  List.intercalate ['&'] (ps.map encodePairL)

/-- Reading one `key=value` piece of a query string back: split at the
first `=`, percent-decode both sides (a piece without `=` has value ""). -/
def parsePairL (kv : List Char) : List Char × List Char :=
  match kv.splitOn '=' with
  | [] => ([], [])
  | [k] => (decodeL k, [])
  | k :: v :: rest => (decodeL k, decodeL (List.intercalate ['='] (v :: rest)))

/-- Reading a query string back into its decoded key/value pairs. -/
def parseQueryL (q : List Char) : List (List Char × List Char) :=
  (q.splitOn '&').map parsePairL

/-- Every character of the string is ASCII (code point below 128). -/
def asciiStr (s : String) : Bool :=
  s.data.all (fun c => c.toNat < 128)

/-- Process-wide configuration read from the environment in
`src/api/oauth.js` lines 6-12.  A missing variable is modelled as `""`
(both are JS-falsy, and only falsiness is ever tested). `requiredScopes`
is the already-trimmed `REQUIRED_SCOPES` value. -/
structure Config where
  clientId : String
  clientSecret : String
  redirectUri : String
  requiredScopes : String
  deriving DecidableEq, Repr

/-- Inbound request: only `req.query.code` is read.  `none` models an
absent parameter, `some ""` a present-but-empty one. -/
structure Request where
  code : Option String
  deriving DecidableEq, Repr

/-- JS falsiness of `req.query.code` (`!code`): absent or empty. -/
def jsFalsy : Option String → Bool
  | none => true
  | some s => s == ""

/-- JS `x || ''` on an optional string field. -/
def jsOrEmpty : Option String → String
  | none => ""
  | some s => s

/-- Body of the token-endpoint response, as the handler consumes it:
`access_token` and the (possibly absent) `scope` string. -/
structure TokenBody where
  accessToken : String
  scope : Option String
  deriving DecidableEq, Repr

/-- Resolved token-endpoint response: HTTP status plus body
(`validateStatus: () => true` resolves every status). -/
structure TokenResp where
  status : Nat
  data : TokenBody
  deriving DecidableEq, Repr

/-- Body of the `/users/@me` response, as far as the handler passes it on. -/
structure UserBody where
  id : String
  username : String
  deriving DecidableEq, Repr

/-- Resolved `/users/@me` response: HTTP status plus body. -/
structure UserResp where
  status : Nat
  data : UserBody
  deriving DecidableEq, Repr

/-- Result of an awaited axios call: either a resolved response (any
status) or a rejected promise carrying the `Error` message (network
failure, DNS, connection reset, ...). -/
inductive FetchResult (α : Type) where
  | ok (resp : α)
  | transportError (msg : String)
  deriving DecidableEq, Repr

/-- Outbound HTTP calls the handler can make. -/
inductive Call where
  | tokenPost
  | userGet
  deriving DecidableEq, Repr

/-- Responses of `src/api/oauth.js`, one constructor per `return res...`
site, carrying exactly the data the JSON body carries. -/
inductive Response where
  | configError
  | redirect (location : String)
  | exchangeFailed (status : Nat) (details : TokenBody) (authorizeUrl : String)
  | scopesMissing (required granted missing : List String) (authorizeUrl : String)
  | success (token : TokenBody) (user : Option UserBody)
  | unexpectedError (message : String)
  deriving DecidableEq, Repr

/-- HTTP status code attached to each response site. -/
def Response.httpStatus : Response → Nat
  | .configError => 500
  | .redirect _ => 302
  | .exchangeFailed _ _ _ => 500
  | .scopesMissing _ _ _ _ => 400
  | .success _ _ => 200
  | .unexpectedError _ => 500

/-- Whether the response is the `server_misconfigured` one. -/
def Response.isConfigError : Response → Bool
  | .configError => true
  | _ => false

/-- Whether the response is the `token_exchange_failed` one. -/
def Response.isExchangeFailed : Response → Bool
  | .exchangeFailed _ _ _ => true
  | _ => false

/-- Whether the response is the `missing_scopes` one. -/
def Response.isScopesMissing : Response → Bool
  | .scopesMissing _ _ _ _ => true
  | _ => false

/-- Whether the response is the 200 success one. -/
def Response.isSuccess : Response → Bool
  | .success _ _ => true
  | _ => false

/-- Whether the response is the `unexpected_error` one. -/
def Response.isUnexpectedError : Response → Bool
  | .unexpectedError _ => true
  | _ => false

/-- Scope value placed in the authorize URL before serialization
(`REQUIRED_SCOPES.split(' ').join('+')`, line 19). -/
def authorizeScopeValue (cfg : Config) : String :=
  String.intercalate "+" (jsSplit ' ' cfg.requiredScopes)

/-- Ordered parameters handed to `new URLSearchParams({...})` in
`buildAuthorizeUrl` (lines 15-20). -/
def authorizeParams (cfg : Config) : List (String × String) :=
  [("client_id", cfg.clientId),
   ("redirect_uri", cfg.redirectUri),
   ("response_type", "code"),
   ("scope", authorizeScopeValue cfg)]

/-- Serialized query string of the authorize URL. -/
def authorizeQuery (cfg : Config) : List Char :=
  buildQueryL ((authorizeParams cfg).map (fun kv => (kv.1.data, kv.2.data)))

/-- Model of `buildAuthorizeUrl` (lines 14-22). -/
def buildAuthorizeUrl (cfg : Config) : String :=
  "https://discord.com/oauth2/authorize?" ++ String.mk (authorizeQuery cfg)

/-- Default `REQUIRED_SCOPES` value (`src/api/oauth.js` line 12), used when
the environment variable is unset; `trim` leaves it unchanged. -/
def defaultRequiredScopes : String := "identify applications.commands gdm.join"

/-- Granted scope list: `(tokenData.scope || '').split(' ').filter(Boolean)`
(line 70), applied to the already-defaulted scope string. -/
def grantedOf (scopeStr : String) : List String :=
  (jsSplit ' ' scopeStr).filter (fun s => !s.isEmpty)

/-- Required scope list: `REQUIRED_SCOPES.split(' ').filter(Boolean)`
(line 73). -/
def requiredOf (cfg : Config) : List String :=
  (jsSplit ' ' cfg.requiredScopes).filter (fun s => !s.isEmpty)

/-- Missing scope list: `required.filter(r => !grantedScopes.includes(r))`
(line 74). -/
def missingOf (cfg : Config) (scopeStr : String) : List String :=
  (requiredOf cfg).filter (fun r => !(grantedOf scopeStr).contains r)

/-- The request handler (`src/api/oauth.js` lines 24-114) as a pure
function of the configuration, the request, and the results of the two
awaited axios calls, returning the response together with the outbound
calls actually performed.  A rejected token call is caught by the outer
`try`/`catch` (line 107); the user-lookup call has its own inner
`try`/`catch` (lines 89-99). -/
def handler (cfg : Config) (req : Request) (tokenResult : FetchResult TokenResp)
    (userResult : FetchResult UserResp) : Response × List Call :=
  if jsFalsy req.code then
    if cfg.clientId == "" || cfg.clientSecret == "" || cfg.redirectUri == "" then
      (.configError, [])
    else
      (.redirect (buildAuthorizeUrl cfg), [])
  else
    match tokenResult with
    | .transportError msg => (.unexpectedError msg, [.tokenPost])
    | .ok tokenResp =>
      if tokenResp.status ≠ 200 then
        (.exchangeFailed tokenResp.status tokenResp.data (buildAuthorizeUrl cfg), [.tokenPost])
      else
        let grantedScopes := grantedOf (jsOrEmpty tokenResp.data.scope)
        let missing := missingOf cfg (jsOrEmpty tokenResp.data.scope)
        if missing.length > 0 then
          (.scopesMissing (requiredOf cfg) grantedScopes missing (buildAuthorizeUrl cfg),
            [.tokenPost])
        else
          let user : Option UserBody :=
            match userResult with
            | .ok userResp => if userResp.status = 200 then some userResp.data else none
            | .transportError _ => none
          (.success tokenResp.data user, [.tokenPost, .userGet])

/-- Response component of a handler run. -/
def handlerResp (cfg : Config) (req : Request) (tokenResult : FetchResult TokenResp)
    (userResult : FetchResult UserResp) : Response :=
  (handler cfg req tokenResult userResult).1

/-- Whether the user lookup failed (non-200 status or transport error):
exactly the runs in which line 95 leaves `user = null`. -/
def userLookupFailed : FetchResult UserResp → Bool
  | .ok r => r.status ≠ 200
  | .transportError _ => true

/-- Whether the token call did not come back as a resolved 200. -/
def exchangeNot200 : FetchResult TokenResp → Bool
  | .ok r => r.status ≠ 200
  | .transportError _ => true

/-! ### Properties of the urlencoded serializer -/

theorem hexVal_hexDigitChar : ∀ m, m < 16 → hexVal (hexDigitChar m) = some m := by decide

theorem hexDigitChar_ne : ∀ m, m < 16 → hexDigitChar m ≠ '&' ∧ hexDigitChar m ≠ '=' := by decide

theorem urlKeepChar_ne_special (c : Char) (hk : urlKeepChar c = true) :
    c ≠ '%' ∧ c ≠ '+' ∧ c ≠ '&' ∧ c ≠ '=' ∧ c ≠ ' ' := by
  refine ⟨?_, ?_, ?_, ?_, ?_⟩ <;> (intro h; subst h; exact absurd hk (by decide))

theorem decodeL_cons_ne (c : Char) (rest : List Char) (h1 : c ≠ '%') (h2 : c ≠ '+') :
    decodeL (c :: rest) = c :: decodeL rest := by
  rw [decodeL.eq_def]
  simp [h1, h2]

theorem decodeL_plus (rest : List Char) : decodeL ('+' :: rest) = ' ' :: decodeL rest := by
  rw [decodeL.eq_def]
  simp

theorem decodeL_pct (h l : Char) (rest : List Char) (a b : Nat) (ha : hexVal h = some a)
    (hb : hexVal l = some b) :
    decodeL ('%' :: h :: l :: rest) = Char.ofNat (16 * a + b) :: decodeL rest := by
  rw [decodeL.eq_def]
  simp [ha, hb]

theorem decodeL_encodeCharL (c : Char) (hc : c.toNat < 128) (rest : List Char) :
    decodeL (encodeCharL c ++ rest) = c :: decodeL rest := by
  by_cases hsp : c = ' '
  · subst hsp
    simpa [encodeCharL] using decodeL_plus rest
  · by_cases hk : urlKeepChar c = true
    · obtain ⟨h1, h2, -, -, -⟩ := urlKeepChar_ne_special c hk
      simp only [encodeCharL, beq_iff_eq, hsp, if_false, hk, if_true, List.singleton_append]
      exact decodeL_cons_ne c rest h1 h2
    · have hdiv : c.toNat / 16 < 16 := by omega
      have hmod : c.toNat % 16 < 16 := Nat.mod_lt _ (by norm_num)
      have he : encodeCharL c = ['%', hexDigitChar (c.toNat / 16), hexDigitChar (c.toNat % 16)] := by
        unfold encodeCharL
        rw [if_neg (by simp [hsp]), if_neg hk]
      rw [he]
      simp only [List.cons_append, List.nil_append]
      rw [decodeL_pct _ _ _ _ _ (hexVal_hexDigitChar _ hdiv) (hexVal_hexDigitChar _ hmod)]
      have hdm : 16 * (c.toNat / 16) + c.toNat % 16 = c.toNat := Nat.div_add_mod _ 16
      rw [hdm, Char.ofNat_toNat]

theorem decodeL_encodeL (l : List Char) (h : ∀ c ∈ l, c.toNat < 128) :
    decodeL (encodeL l) = l := by
  induction l with
  | nil => rfl
  | cons c rest ih =>
    have hc : c.toNat < 128 := h c (List.mem_cons_self c rest)
    have hrest : ∀ c ∈ rest, c.toNat < 128 := fun d hd => h d (List.mem_cons_of_mem c hd)
    calc decodeL (encodeL (c :: rest))
        = decodeL (encodeCharL c ++ encodeL rest) := by simp [encodeL]
      _ = c :: decodeL (encodeL rest) := decodeL_encodeCharL c hc _
      _ = c :: rest := by rw [ih hrest]

theorem mem_encodeCharL_ne (c : Char) (hc : c.toNat < 128) {d : Char}
    (hd : d ∈ encodeCharL c) : d ≠ '&' ∧ d ≠ '=' := by
  unfold encodeCharL at hd
  split at hd
  · simp only [List.mem_singleton] at hd
    subst hd; exact ⟨by decide, by decide⟩
  · split at hd
    · next hk =>
      simp only [List.mem_singleton] at hd
      subst hd
      obtain ⟨-, -, h3, h4, -⟩ := urlKeepChar_ne_special _ hk
      exact ⟨h3, h4⟩
    · have hdiv : c.toNat / 16 < 16 := by omega
      have hmod : c.toNat % 16 < 16 := Nat.mod_lt _ (by norm_num)
      simp only [List.mem_cons, List.not_mem_nil, or_false] at hd
      rcases hd with h | h | h
      · subst h; exact ⟨by decide, by decide⟩
      · subst h; exact hexDigitChar_ne _ hdiv
      · subst h; exact hexDigitChar_ne _ hmod

theorem mem_encodeL_ne (l : List Char) (hl : ∀ c ∈ l, c.toNat < 128) {d : Char}
    (hd : d ∈ encodeL l) : d ≠ '&' ∧ d ≠ '=' := by
  simp only [encodeL, List.mem_flatten, List.mem_map] at hd
  obtain ⟨piece, ⟨c, hc, rfl⟩, hdp⟩ := hd
  exact mem_encodeCharL_ne c (hl c hc) hdp

theorem splitOn_encodePairL (k v : List Char) (hk : ∀ c ∈ k, c.toNat < 128)
    (hv : ∀ c ∈ v, c.toNat < 128) :
    (encodePairL (k, v)).splitOn '=' = [encodeL k, encodeL v] := by
  have heq : encodePairL (k, v) = List.intercalate ['='] [encodeL k, encodeL v] := by
    simp [encodePairL, List.intercalate]
  rw [heq, List.splitOn_intercalate]
  · intro l hl
    simp only [List.mem_cons, List.not_mem_nil, or_false] at hl
    rcases hl with rfl | rfl
    · intro hmem; exact (mem_encodeL_ne k hk hmem).2 rfl
    · intro hmem; exact (mem_encodeL_ne v hv hmem).2 rfl
  · simp

theorem parsePairL_encodePairL (k v : List Char) (hk : ∀ c ∈ k, c.toNat < 128)
    (hv : ∀ c ∈ v, c.toNat < 128) :
    parsePairL (encodePairL (k, v)) = (k, v) := by
  unfold parsePairL
  rw [splitOn_encodePairL k v hk hv]
  simp [List.intercalate, decodeL_encodeL k hk, decodeL_encodeL v hv]

theorem parseQueryL_buildQueryL (ps : List (List Char × List Char)) (hne : ps ≠ [])
    (h : ∀ kv ∈ ps, (∀ c ∈ kv.1, c.toNat < 128) ∧ (∀ c ∈ kv.2, c.toNat < 128)) :
    parseQueryL (buildQueryL ps) = ps := by
  unfold parseQueryL buildQueryL
  rw [List.splitOn_intercalate]
  · rw [List.map_map]
    have hcongr : ∀ kv ∈ ps, (parsePairL ∘ encodePairL) kv = id kv := by
      intro kv hkv
      obtain ⟨k, v⟩ := kv
      obtain ⟨h1, h2⟩ := h (k, v) hkv
      simpa using parsePairL_encodePairL k v h1 h2
    rw [List.map_congr_left hcongr, List.map_id]
  · intro l hl
    simp only [List.mem_map] at hl
    obtain ⟨⟨k, v⟩, hkv, rfl⟩ := hl
    obtain ⟨h1, h2⟩ := h (k, v) hkv
    intro hmem
    simp only [encodePairL, List.mem_append, List.mem_cons] at hmem
    rcases hmem with hmem | hmem | hmem
    · exact (mem_encodeL_ne k h1 hmem).1 rfl
    · exact absurd hmem (by decide)
    · exact (mem_encodeL_ne v h2 hmem).1 rfl
  · simp [hne]

theorem asciiStr_iff (s : String) : asciiStr s = true ↔ ∀ c ∈ s.data, c.toNat < 128 := by
  simp [asciiStr, List.all_eq_true]

/-! ### Claim theorems -/

/-- Claim C3: for every request in which the `code` query parameter is absent
and at least one of client id, client secret, or redirect URI is
empty/missing, the handler responds with a 500 configuration error and
performs no outbound HTTP call. -/
theorem no_code_incomplete_config_error (cfg : Config) (req : Request)
    (t : FetchResult TokenResp) (u : FetchResult UserResp)
    (hcode : req.code = none)
    (hcfg : cfg.clientId = "" ∨ cfg.clientSecret = "" ∨ cfg.redirectUri = "") :
    handler cfg req t u = (.configError, []) ∧ Response.httpStatus .configError = 500 := by
  refine ⟨?_, rfl⟩
  unfold handler
  rw [hcode]
  simp only [jsFalsy, if_true]
  rcases hcfg with h | h | h <;> simp [h]

theorem no_code_incomplete_config_error_witness :
    (⟨"", "sec", "https://cb", "identify"⟩ : Config).clientId = ""
    ∧ handler ⟨"", "sec", "https://cb", "identify"⟩ ⟨none⟩
        (.transportError "unused") (.ok ⟨200, ⟨"1", "u"⟩⟩) = (.configError, []) :=
  ⟨by decide,
   (no_code_incomplete_config_error ⟨"", "sec", "https://cb", "identify"⟩ ⟨none⟩
     (.transportError "unused") (.ok ⟨200, ⟨"1", "u"⟩⟩) rfl (Or.inl rfl)).1⟩

/-- Claim C9: the authorize-URL builder is a pure deterministic function of
the configuration: two calls on configurations agreeing on client id,
redirect URI and required scopes yield byte-identical authorize URLs (in
particular it ignores the client secret, and being a total function it has
no failure mode). -/
theorem buildAuthorizeUrl_deterministic (c1 c2 : Config)
    (h1 : c1.clientId = c2.clientId) (h2 : c1.redirectUri = c2.redirectUri)
    (h3 : c1.requiredScopes = c2.requiredScopes) :
    buildAuthorizeUrl c1 = buildAuthorizeUrl c2 := by
  simp only [buildAuthorizeUrl, authorizeQuery, authorizeParams, authorizeScopeValue,
    h1, h2, h3]

theorem buildAuthorizeUrl_deterministic_witness :
    buildAuthorizeUrl ⟨"cid", "secretA", "https://cb", "a b"⟩
      = buildAuthorizeUrl ⟨"cid", "secretB", "https://cb", "a b"⟩ :=
  buildAuthorizeUrl_deterministic _ _ rfl rfl rfl

/-- Claim C1: on a successful token exchange the handler computes
`missing = required − granted` (exactly the members of the required list
absent from the granted set, in the order of the required list), and when
`missing` is non-empty it responds 400 with required, granted and missing;
required `a b c` with granted `a b` yields missing `[c]` (see witness). -/
theorem missing_scopes_outcome (cfg : Config) (code tok scopeStr : String)
    (u : FetchResult UserResp) (hcode : code ≠ "")
    (hm : missingOf cfg scopeStr ≠ []) :
    handlerResp cfg ⟨some code⟩ (.ok ⟨200, ⟨tok, some scopeStr⟩⟩) u =
      .scopesMissing (requiredOf cfg) (grantedOf scopeStr) (missingOf cfg scopeStr)
        (buildAuthorizeUrl cfg)
    ∧ (∀ s, s ∈ missingOf cfg scopeStr ↔ s ∈ requiredOf cfg ∧ s ∉ grantedOf scopeStr)
    ∧ (missingOf cfg scopeStr).Sublist (requiredOf cfg)
    ∧ Response.httpStatus (.scopesMissing (requiredOf cfg) (grantedOf scopeStr)
        (missingOf cfg scopeStr) (buildAuthorizeUrl cfg)) = 400 := by
  refine ⟨?_, ?_, List.filter_sublist _, rfl⟩
  · unfold handlerResp handler
    simp only [jsFalsy, beq_iff_eq, hcode, if_false]
    simp only [jsOrEmpty]
    rw [if_neg (by simp)]
    rw [if_pos (by simpa [gt_iff_lt, List.length_pos] using hm)]
  · intro s
    simp [missingOf, List.mem_filter, List.contains, List.elem_iff]

theorem missing_scopes_outcome_witness :
    ("xyz" : String) ≠ ""
    ∧ missingOf ⟨"cid", "sec", "https://cb", "a b c"⟩ "a b" = ["c"]
    ∧ handlerResp ⟨"cid", "sec", "https://cb", "a b c"⟩ ⟨some "xyz"⟩
        (.ok ⟨200, ⟨"tok", some "a b"⟩⟩) (.ok ⟨200, ⟨"1", "u"⟩⟩) =
      .scopesMissing (requiredOf ⟨"cid", "sec", "https://cb", "a b c"⟩) (grantedOf "a b")
        (missingOf ⟨"cid", "sec", "https://cb", "a b c"⟩ "a b")
        (buildAuthorizeUrl ⟨"cid", "sec", "https://cb", "a b c"⟩) :=
  ⟨by decide, by decide,
   (missing_scopes_outcome ⟨"cid", "sec", "https://cb", "a b c"⟩ "xyz" "tok" "a b"
     (.ok ⟨200, ⟨"1", "u"⟩⟩) (by decide) (by decide)).1⟩

/-- Claim C4: when the exchange succeeded with all required scopes granted
and the identity lookup returns a non-success status or fails at the
transport level, the handler still responds 200 Success with identity
absent (`null`); the identity failure never changes the terminal outcome. -/
theorem identity_lookup_best_effort (cfg : Config) (code tok : String)
    (scope : Option String) (u : FetchResult UserResp) (hcode : code ≠ "")
    (hm : missingOf cfg (jsOrEmpty scope) = [])
    (hu : userLookupFailed u = true) :
    handlerResp cfg ⟨some code⟩ (.ok ⟨200, ⟨tok, scope⟩⟩) u = .success ⟨tok, scope⟩ none
    ∧ Response.httpStatus (.success ⟨tok, scope⟩ none) = 200 := by
  refine ⟨?_, rfl⟩
  unfold handlerResp handler
  simp only [jsFalsy, beq_iff_eq, hcode, if_false]
  rw [if_neg (by simp)]
  rw [if_neg (by simp [hm])]
  cases u with
  | ok r =>
    unfold userLookupFailed at hu
    simp only [ne_eq, decide_eq_true_eq] at hu
    simp [hu]
  | transportError m => rfl

theorem identity_lookup_best_effort_witness :
    ("xyz" : String) ≠ ""
    ∧ missingOf ⟨"cid", "sec", "https://cb", "a b"⟩ (jsOrEmpty (some "a b")) = []
    ∧ userLookupFailed (FetchResult.ok (⟨401, ⟨"1", "u"⟩⟩ : UserResp)) = true
    ∧ handlerResp ⟨"cid", "sec", "https://cb", "a b"⟩ ⟨some "xyz"⟩
        (.ok ⟨200, ⟨"tok", some "a b"⟩⟩) (.ok ⟨401, ⟨"1", "u"⟩⟩) =
      .success ⟨"tok", some "a b"⟩ none :=
  ⟨by decide, by decide, by decide,
   (identity_lookup_best_effort ⟨"cid", "sec", "https://cb", "a b"⟩ "xyz" "tok"
     (some "a b") (.ok ⟨401, ⟨"1", "u"⟩⟩) (by decide) (by decide) (by decide)).1⟩

/-- Branch lemma: a truthy code and a rejected token call land in the
top-level catch. -/
theorem handler_transport (cfg : Config) (code msg : String) (u : FetchResult UserResp)
    (hcode : code ≠ "") :
    handler cfg ⟨some code⟩ (.transportError msg) u =
      (.unexpectedError msg, [.tokenPost]) := by
  unfold handler
  simp [jsFalsy, hcode]

/-- Branch lemma: a truthy code and a resolved non-200 token response give
the exchange-failed response. -/
theorem handler_exchange_failed (cfg : Config) (code : String) (r : TokenResp)
    (u : FetchResult UserResp) (hcode : code ≠ "") (hs : r.status ≠ 200) :
    handler cfg ⟨some code⟩ (.ok r) u =
      (.exchangeFailed r.status r.data (buildAuthorizeUrl cfg), [.tokenPost]) := by
  unfold handler
  simp [jsFalsy, hcode, hs]

/-- Branch lemma: a truthy code, a resolved 200 and a non-empty missing
list give the missing-scopes response. -/
theorem handler_scopes_missing (cfg : Config) (code : String) (r : TokenResp)
    (u : FetchResult UserResp) (hcode : code ≠ "") (hs : r.status = 200)
    (hm : missingOf cfg (jsOrEmpty r.data.scope) ≠ []) :
    handler cfg ⟨some code⟩ (.ok r) u =
      (.scopesMissing (requiredOf cfg) (grantedOf (jsOrEmpty r.data.scope))
        (missingOf cfg (jsOrEmpty r.data.scope)) (buildAuthorizeUrl cfg), [.tokenPost]) := by
  unfold handler
  simp only [jsFalsy, beq_iff_eq, hcode, if_false, hs, ne_eq, not_true_eq_false]
  rw [if_pos (by simpa [gt_iff_lt, List.length_pos] using hm)]

/-- Branch lemma: a truthy code, a resolved 200 and an empty missing list
give the success response, whose user field reflects the user lookup. -/
theorem handler_success (cfg : Config) (code : String) (r : TokenResp)
    (u : FetchResult UserResp) (hcode : code ≠ "") (hs : r.status = 200)
    (hm : missingOf cfg (jsOrEmpty r.data.scope) = []) :
    handler cfg ⟨some code⟩ (.ok r) u =
      (.success r.data
        (match u with
         | .ok ur => if ur.status = 200 then some ur.data else none
         | .transportError _ => none), [.tokenPost, .userGet]) := by
  unfold handler
  simp only [jsFalsy, beq_iff_eq, hcode, if_false, hs, ne_eq, not_true_eq_false]
  rw [if_neg (by simp [hm])]

/-- Claim C10 counterexample: a request with the `code` query parameter
present but empty (`?code=`) together with a missing client id makes the
handler emit the configuration error after all — `if (!code)` tests JS
falsiness, not presence, so a present-but-empty code takes the no-code
branch. -/
theorem code_present_config_error_counterexample :
    handlerResp ⟨"", "", "", "identify"⟩ ⟨some ""⟩ (.transportError "unused")
      (.ok ⟨200, ⟨"1", "u"⟩⟩) = .configError := by decide

/-- Claim C10 (amended): for every request whose `code` parameter is present
and non-empty, the handler never emits ConfigurationError; it always
attempts the token exchange (even with incomplete credentials), and
whenever the exchange does not come back as a resolved 200 the outcome is
ExchangeFailed or UnexpectedError. -/
theorem code_truthy_no_config_error (cfg : Config) (code : String)
    (t : FetchResult TokenResp) (u : FetchResult UserResp) (hcode : code ≠ "") :
    Response.isConfigError (handlerResp cfg ⟨some code⟩ t u) = false
    ∧ Call.tokenPost ∈ (handler cfg ⟨some code⟩ t u).2
    ∧ (exchangeNot200 t = true →
        (Response.isExchangeFailed (handlerResp cfg ⟨some code⟩ t u)
          || Response.isUnexpectedError (handlerResp cfg ⟨some code⟩ t u)) = true) := by
  unfold handlerResp
  cases t with
  | transportError m =>
    rw [handler_transport cfg code m u hcode]
    exact ⟨rfl, by simp, fun _ => rfl⟩
  | ok r =>
    by_cases hs : r.status = 200
    · by_cases hm : missingOf cfg (jsOrEmpty r.data.scope) = []
      · rw [handler_success cfg code r u hcode hs hm]
        refine ⟨rfl, by simp, fun hfalse => ?_⟩
        simp [exchangeNot200, hs] at hfalse
      · rw [handler_scopes_missing cfg code r u hcode hs hm]
        refine ⟨rfl, by simp, fun hfalse => ?_⟩
        simp [exchangeNot200, hs] at hfalse
    · rw [handler_exchange_failed cfg code r u hcode hs]
      exact ⟨rfl, by simp, fun _ => rfl⟩

theorem code_truthy_no_config_error_witness :
    ("xyz" : String) ≠ ""
    ∧ Response.isConfigError (handlerResp ⟨"", "", "", "identify"⟩ ⟨some "xyz"⟩
        (.ok ⟨401, ⟨"", none⟩⟩) (.ok ⟨200, ⟨"1", "u"⟩⟩)) = false
    ∧ Call.tokenPost ∈ (handler ⟨"", "", "", "identify"⟩ ⟨some "xyz"⟩
        (.ok ⟨401, ⟨"", none⟩⟩) (.ok ⟨200, ⟨"1", "u"⟩⟩)).2
    ∧ (Response.isExchangeFailed (handlerResp ⟨"", "", "", "identify"⟩ ⟨some "xyz"⟩
        (.ok ⟨401, ⟨"", none⟩⟩) (.ok ⟨200, ⟨"1", "u"⟩⟩))
        || Response.isUnexpectedError (handlerResp ⟨"", "", "", "identify"⟩ ⟨some "xyz"⟩
        (.ok ⟨401, ⟨"", none⟩⟩) (.ok ⟨200, ⟨"1", "u"⟩⟩))) = true :=
  have h := code_truthy_no_config_error ⟨"", "", "", "identify"⟩ "xyz"
    (.ok ⟨401, ⟨"", none⟩⟩) (.ok ⟨200, ⟨"1", "u"⟩⟩) (by decide)
  ⟨by decide, h.1, h.2.1, h.2.2 (by decide)⟩

/-- Claim C8: scope comparison is case-sensitive exact-string matching on
space-delimited tokens — a required token is missing exactly when no
granted token is literally equal to it — and an empty required-scope
configuration makes scope validation trivially pass: the ScopesMissing
outcome is unreachable whatever the granted scopes and inputs are. -/
theorem scope_comparison_policy (cfg : Config) (g : String) :
    (∀ s, s ∈ missingOf cfg g ↔ s ∈ requiredOf cfg ∧ s ∉ grantedOf g)
    ∧ (cfg.requiredScopes = "" →
        missingOf cfg g = []
        ∧ ∀ (req : Request) (t : FetchResult TokenResp) (u : FetchResult UserResp),
            Response.isScopesMissing (handlerResp cfg req t u) = false) := by
  constructor
  · intro s
    simp [missingOf, List.mem_filter, List.contains, List.elem_iff]
  · intro hreq
    have hreqOf : requiredOf cfg = [] := by
      unfold requiredOf jsSplit
      rw [hreq]
      rfl
    have hmiss : ∀ g', missingOf cfg g' = [] := by
      intro g'
      unfold missingOf
      rw [hreqOf]
      rfl
    refine ⟨hmiss g, ?_⟩
    intro req t u
    unfold handlerResp
    obtain ⟨c⟩ := req
    by_cases hf : jsFalsy c = true
    · unfold handler
      dsimp only
      rw [if_pos hf]
      split <;> rfl
    · cases c with
      | none => simp [jsFalsy] at hf
      | some code =>
        have hcode : code ≠ "" := by simpa [jsFalsy] using hf
        cases t with
        | transportError m => rw [handler_transport cfg code m u hcode]; rfl
        | ok r =>
          by_cases hs : r.status = 200
          · rw [handler_success cfg code r u hcode hs (hmiss _)]; rfl
          · rw [handler_exchange_failed cfg code r u hcode hs]; rfl

theorem scope_comparison_policy_witness :
    ("A" ∈ missingOf ⟨"cid", "sec", "https://cb", "A"⟩ "a" ↔
      "A" ∈ requiredOf ⟨"cid", "sec", "https://cb", "A"⟩ ∧ "A" ∉ grantedOf "a")
    ∧ missingOf ⟨"cid", "sec", "https://cb", ""⟩ "a b" = []
    ∧ Response.isScopesMissing (handlerResp ⟨"cid", "sec", "https://cb", ""⟩ ⟨some "xyz"⟩
        (.ok ⟨200, ⟨"tok", some "a b"⟩⟩) (.ok ⟨200, ⟨"1", "u"⟩⟩)) = false :=
  ⟨(scope_comparison_policy ⟨"cid", "sec", "https://cb", "A"⟩ "a").1 "A",
   ((scope_comparison_policy ⟨"cid", "sec", "https://cb", ""⟩ "a b").2 rfl).1,
   ((scope_comparison_policy ⟨"cid", "sec", "https://cb", ""⟩ "a b").2 rfl).2 ⟨some "xyz"⟩
     (.ok ⟨200, ⟨"tok", some "a b"⟩⟩) (.ok ⟨200, ⟨"1", "u"⟩⟩)⟩

/-- Claim C2 counterexample: at a concrete transport failure of the token
call the handler emits UnexpectedError (via the top-level catch), not the
claimed ExchangeFailed with retry URL, and at a concrete resolved 201 — a
2xx success status — it emits ExchangeFailed instead of proceeding past
the exchange step (the code tests `status !== 200`, not non-2xx). -/
theorem exchange_failure_counterexample :
    handlerResp ⟨"cid", "sec", "https://cb", "identify"⟩ ⟨some "xyz"⟩
        (.transportError "socket hang up") (.ok ⟨200, ⟨"1", "u"⟩⟩)
      = .unexpectedError "socket hang up"
    ∧ Response.isExchangeFailed (.unexpectedError "socket hang up") = false
    ∧ Response.isExchangeFailed (handlerResp ⟨"cid", "sec", "https://cb", "identify"⟩
        ⟨some "xyz"⟩ (.ok ⟨201, ⟨"tok", some "identify"⟩⟩) (.ok ⟨200, ⟨"1", "u"⟩⟩)) = true :=
  ⟨by decide, by decide, by decide⟩

/-- Claim C2 (amended): a resolved token response never throws whatever its
status; every resolved status other than exactly 200 yields the terminal
ExchangeFailed response (HTTP 500) carrying the upstream status and body
plus a freshly built authorize URL; a transport failure during the
exchange is caught by the top-level catch and yields UnexpectedError; the
flow proceeds past the exchange step (to scope validation or success)
exactly for resolved status 200. -/
theorem exchange_failure_behavior (cfg : Config) (code msg : String) (r : TokenResp)
    (u : FetchResult UserResp) (hcode : code ≠ "") :
    (r.status ≠ 200 →
      handlerResp cfg ⟨some code⟩ (.ok r) u =
        .exchangeFailed r.status r.data (buildAuthorizeUrl cfg)
      ∧ Response.httpStatus (.exchangeFailed r.status r.data (buildAuthorizeUrl cfg)) = 500)
    ∧ handlerResp cfg ⟨some code⟩ (.transportError msg) u = .unexpectedError msg
    ∧ (r.status = 200 →
        (Response.isScopesMissing (handlerResp cfg ⟨some code⟩ (.ok r) u)
          || Response.isSuccess (handlerResp cfg ⟨some code⟩ (.ok r) u)) = true) := by
  refine ⟨fun hs => ⟨?_, rfl⟩, ?_, fun hs => ?_⟩
  · unfold handlerResp
    rw [handler_exchange_failed cfg code r u hcode hs]
  · unfold handlerResp
    rw [handler_transport cfg code msg u hcode]
  · unfold handlerResp
    by_cases hm : missingOf cfg (jsOrEmpty r.data.scope) = []
    · rw [handler_success cfg code r u hcode hs hm]; rfl
    · rw [handler_scopes_missing cfg code r u hcode hs hm]; rfl

theorem exchange_failure_behavior_witness :
    handlerResp ⟨"cid", "sec", "https://cb", "identify"⟩ ⟨some "xyz"⟩
        (.ok ⟨400, ⟨"", none⟩⟩) (.ok ⟨200, ⟨"1", "u"⟩⟩)
      = .exchangeFailed 400 ⟨"", none⟩
          (buildAuthorizeUrl ⟨"cid", "sec", "https://cb", "identify"⟩)
    ∧ handlerResp ⟨"cid", "sec", "https://cb", "identify"⟩ ⟨some "xyz"⟩
        (.transportError "getaddrinfo ENOTFOUND discord.com") (.ok ⟨200, ⟨"1", "u"⟩⟩)
      = .unexpectedError "getaddrinfo ENOTFOUND discord.com" :=
  have h := exchange_failure_behavior ⟨"cid", "sec", "https://cb", "identify"⟩ "xyz"
    "getaddrinfo ENOTFOUND discord.com" ⟨400, ⟨"", none⟩⟩ (.ok ⟨200, ⟨"1", "u"⟩⟩) (by decide)
  ⟨(h.1 (by decide)).1, h.2.1⟩

/-- Claim C5 (code bug): the top-level catch of `src/api/oauth.js` (lines
107-113) responds 500 with `message: error.message`, echoing the internal
exception text verbatim and containing no retry link; consequently two
runs that differ only in the exception text produce different response
bodies, contradicting the required sanitization. -/
theorem unexpected_error_leaks_message :
    handlerResp ⟨"cid", "sec", "https://cb", "identify"⟩ ⟨some "xyz"⟩
        (.transportError "connect ECONNREFUSED 127.0.0.1:443") (.ok ⟨200, ⟨"1", "u"⟩⟩)
      = .unexpectedError "connect ECONNREFUSED 127.0.0.1:443"
    ∧ handlerResp ⟨"cid", "sec", "https://cb", "identify"⟩ ⟨some "xyz"⟩
        (.transportError "msgA") (.ok ⟨200, ⟨"1", "u"⟩⟩)
      ≠ handlerResp ⟨"cid", "sec", "https://cb", "identify"⟩ ⟨some "xyz"⟩
        (.transportError "msgB") (.ok ⟨200, ⟨"1", "u"⟩⟩) :=
  ⟨by decide, by decide⟩

set_option maxRecDepth 8192 in
/-- Claim C6 (code bug): `buildAuthorizeUrl` pre-joins the scopes with `+`
(line 19) and `URLSearchParams` then percent-encodes that literal `+` as
`%2B`, so at the default scope configuration the URL carries
`scope=identify%2Bapplications.commands%2Bgdm.join` and decoding the scope
parameter yields the scopes joined by literal `+` characters, not
separated by spaces as the claim requires. -/
theorem scope_param_double_encoded :
    buildAuthorizeUrl ⟨"123", "sec", "https://example.com/cb", defaultRequiredScopes⟩
      = "https://discord.com/oauth2/authorize?client_id=123&redirect_uri=https%3A%2F%2Fexample.com%2Fcb&response_type=code&scope=identify%2Bapplications.commands%2Bgdm.join"
    ∧ parseQueryL (authorizeQuery ⟨"123", "sec", "https://example.com/cb", defaultRequiredScopes⟩)
      = [("client_id".data, "123".data),
         ("redirect_uri".data, "https://example.com/cb".data),
         ("response_type".data, "code".data),
         ("scope".data, "identify+applications.commands+gdm.join".data)]
    ∧ "identify+applications.commands+gdm.join" ≠ "identify applications.commands gdm.join" :=
  ⟨by decide, by decide, by decide⟩

/-- Claim C7: for every request in which the `code` query parameter is
absent and the configuration is complete, the response is a 302 redirect
to the authorize URL; the decoded query parameters of that URL carry
exactly the configured client id, the redirect URI, and the scope value,
which is the `+`-join of the space-split scope tokens, a list containing
every required scope. -/
theorem no_code_redirect_contains (cfg : Config) (t : FetchResult TokenResp)
    (u : FetchResult UserResp)
    (hid : cfg.clientId ≠ "") (hsec : cfg.clientSecret ≠ "") (huri : cfg.redirectUri ≠ "")
    (ha1 : asciiStr cfg.clientId = true) (ha2 : asciiStr cfg.redirectUri = true)
    (ha3 : asciiStr (authorizeScopeValue cfg) = true) :
    handler cfg ⟨none⟩ t u = (.redirect (buildAuthorizeUrl cfg), [])
    ∧ buildAuthorizeUrl cfg
        = "https://discord.com/oauth2/authorize?" ++ String.mk (authorizeQuery cfg)
    ∧ parseQueryL (authorizeQuery cfg)
        = [("client_id".data, cfg.clientId.data),
           ("redirect_uri".data, cfg.redirectUri.data),
           ("response_type".data, "code".data),
           ("scope".data, (authorizeScopeValue cfg).data)]
    ∧ authorizeScopeValue cfg = String.intercalate "+" (jsSplit ' ' cfg.requiredScopes)
    ∧ ∀ s ∈ requiredOf cfg, s ∈ jsSplit ' ' cfg.requiredScopes := by
  refine ⟨?_, rfl, ?_, rfl, fun s hs => List.mem_of_mem_filter hs⟩
  · unfold handler
    rw [if_pos (show jsFalsy (Request.mk none).code = true from rfl)]
    rw [if_neg (by simp [hid, hsec, huri])]
  · have hq : authorizeQuery cfg
        = buildQueryL [("client_id".data, cfg.clientId.data),
           ("redirect_uri".data, cfg.redirectUri.data),
           ("response_type".data, "code".data),
           ("scope".data, (authorizeScopeValue cfg).data)] := rfl
    rw [hq, parseQueryL_buildQueryL]
    · simp
    · intro kv hkv
      simp only [List.mem_cons, List.not_mem_nil, or_false] at hkv
      rcases hkv with rfl | rfl | rfl | rfl
      · exact ⟨(by decide : ∀ c ∈ ("client_id".data : List Char), c.toNat < 128),
          (asciiStr_iff _).mp ha1⟩
      · exact ⟨(by decide : ∀ c ∈ ("redirect_uri".data : List Char), c.toNat < 128),
          (asciiStr_iff _).mp ha2⟩
      · exact ⟨(by decide : ∀ c ∈ ("response_type".data : List Char), c.toNat < 128),
          (by decide : ∀ c ∈ ("code".data : List Char), c.toNat < 128)⟩
      · exact ⟨(by decide : ∀ c ∈ ("scope".data : List Char), c.toNat < 128),
          (asciiStr_iff _).mp ha3⟩

theorem no_code_redirect_contains_witness :
    handler ⟨"123", "sec", "https://example.com/cb", "identify gdm.join"⟩ ⟨none⟩
        (.transportError "unused") (.ok ⟨200, ⟨"1", "u"⟩⟩)
      = (.redirect (buildAuthorizeUrl
          ⟨"123", "sec", "https://example.com/cb", "identify gdm.join"⟩), [])
    ∧ parseQueryL (authorizeQuery ⟨"123", "sec", "https://example.com/cb", "identify gdm.join"⟩)
      = [("client_id".data, "123".data),
         ("redirect_uri".data, "https://example.com/cb".data),
         ("response_type".data, "code".data),
         ("scope".data, "identify+gdm.join".data)] :=
  have h := no_code_redirect_contains
    ⟨"123", "sec", "https://example.com/cb", "identify gdm.join"⟩
    (.transportError "unused") (.ok ⟨200, ⟨"1", "u"⟩⟩)
    (by decide) (by decide) (by decide) (by decide) (by decide) (by decide)
  ⟨h.1, h.2.2.1.trans (by decide)⟩
